import Mathlib

/-!
Shallow embedding of the `mesh-labs` 01-keygen utilities.

The repository's logic lives in three small modules:
  * `storage.ts` — `saveKeyPair` / `loadKeyPair` / `validateStoredKeyPair`
    over the browser's `localStorage`;
  * `security.ts` + the enhanced `storage.ts` — `generateSecureRandomString`,
    `clearKeyPair` (overwrite-then-remove) and `logSecurityEvent`;
  * `crypto.ts` — `encodeKey` / `decodeKey` (Base64 framing via `btoa` /
    `atob`), `generateKeyPair` and `importKeyPair` around the Web Crypto API.

`localStorage` is modelled as an association list of string keys to string
values, with an availability flag; every storage façade function is state
passing and also returns the list of primitive storage operations it
performed, in order.  The platform JSON codec (`JSON.stringify` /
`JSON.parse`) is modelled concretely below with the full JSON number
grammar; a number is carried as an exact decimal `mantissa × 10 ^ exp10`,
and the one comparison the code performs on a number (`created > 0`)
follows the platform's IEEE-754 double semantics (`jsNumPos`).
`btoa` / `atob` are modelled concretely after the WHATWG
forgiving-base64 algorithms.  Randomness (`crypto.getRandomValues`), the
clock (`Date.now()`) and the platform crypto call outcomes are passed in as
explicit parameters.
-/

/-- JSON values as handled by the platform JSON codec.  A number is the
exact decimal `mantissa * 10 ^ exp10`, kept canonical (a non-zero mantissa
is not divisible by 10 when `exp10 < 0`, and zero is `num 0 0`); this
represents every value the JSON number grammar can denote. -/
inductive JsonValue where
  | null : JsonValue
  | bool (b : Bool) : JsonValue
  | num (mantissa exp10 : Int) : JsonValue
  | str (s : String) : JsonValue
  | arr (elements : List JsonValue) : JsonValue
  | obj (fields : List (String × JsonValue)) : JsonValue
deriving Repr

/-- Lower-case hexadecimal digit, as `JSON.stringify` renders control
characters. -/
def hexDigitChar (n : Nat) : Char :=
  if n < 10 then Char.ofNat (48 + n) else Char.ofNat (87 + n)

/-- How `JSON.stringify` escapes one character inside a string literal. -/
def escapeChar (c : Char) : List Char :=
  if c = '"' then ['\\', '"']
  else if c = '\\' then ['\\', '\\']
  else if c = '\x08' then ['\\', 'b']
  else if c = '\x09' then ['\\', 't']
  else if c = '\x0a' then ['\\', 'n']
  else if c = '\x0c' then ['\\', 'f']
  else if c = '\x0d' then ['\\', 'r']
  else if c.toNat < 32 then
    ['\\', 'u', '0', '0', hexDigitChar (c.toNat / 16), hexDigitChar (c.toNat % 16)]
  else [c]

/-- `JSON.stringify` of a string value. -/
def stringifyString (s : String) : String :=
  String.mk ('"' :: (s.data.map escapeChar).flatten ++ ['"'])

/-- Decimal rendering of a canonical number value: plain digits for a
non-negative exponent, a decimal point otherwise.  (For magnitudes outside
`[1e-6, 1e21)` the platform switches to exponent notation; that formatting
difference is not modelled and no claim's content depends on it.) -/
def stringifyNum (m e : Int) : String :=
  if m = 0 then "0"
  else
    let sign := if m < 0 then "-" else ""
    let ds := (toString m.natAbs).data
    if 0 ≤ e then sign ++ String.mk (ds ++ List.replicate e.toNat '0')
    else
      let k := (-e).toNat
      if k < ds.length then
        sign ++ String.mk (ds.take (ds.length - k) ++ '.' :: ds.drop (ds.length - k))
      else sign ++ String.mk ('0' :: '.' :: (List.replicate (k - ds.length) '0' ++ ds))

mutual

/-- The platform `JSON.stringify`, restricted to the integer-number JSON
fragment (compact output: no added whitespace, fields in order). -/
def jsonStringify : JsonValue → String
  | .null => "null"
  | .bool true => "true"
  | .bool false => "false"
  | .num m e => stringifyNum m e
  | .str s => stringifyString s
  | .arr xs => String.mk ('[' :: (stringifyElems xs).data ++ [']'])
  | .obj fs => String.mk ('\x7b' :: (stringifyFields fs).data ++ ['\x7d'])

/-- Comma-separated rendering of array elements. -/
def stringifyElems : List JsonValue → String
  | [] => ""
  | [x] => jsonStringify x
  | x :: y :: rest => jsonStringify x ++ "," ++ stringifyElems (y :: rest)

/-- Comma-separated rendering of object members. -/
def stringifyFields : List (String × JsonValue) → String
  | [] => ""
  | [(k, v)] => stringifyString k ++ ":" ++ jsonStringify v
  | (k, v) :: f :: rest =>
      stringifyString k ++ ":" ++ jsonStringify v ++ "," ++ stringifyFields (f :: rest)

end

/-- JSON insignificant whitespace. -/
def isJsonWs (c : Char) : Bool :=
  c = ' ' || c = '\x09' || c = '\x0a' || c = '\x0d'

/-- Skip insignificant whitespace. -/
def skipWs : List Char → List Char
  | c :: rest => if isJsonWs c then skipWs rest else c :: rest
  | [] => []

/-- Value of a hexadecimal digit. -/
def hexVal (c : Char) : Option Nat :=
  if '0' ≤ c && c ≤ '9' then some (c.toNat - 48)
  else if 'a' ≤ c && c ≤ 'f' then some (c.toNat - 87)
  else if 'A' ≤ c && c ≤ 'F' then some (c.toNat - 55)
  else none

/-- Parse the body of a JSON string literal (after the opening quote),
returning the decoded characters and the input after the closing quote. -/
def parseStrChars : List Char → Option (List Char × List Char)
  | [] => none
  | '"' :: rest => some ([], rest)
  | '\\' :: rest =>
    match rest with
    | [] => none
    | 'u' :: h1 :: h2 :: h3 :: h4 :: r3 =>
      match hexVal h1, hexVal h2, hexVal h3, hexVal h4 with
      | some a, some b, some c, some d =>
        let n := ((a * 16 + b) * 16 + c) * 16 + d
        if Nat.isValidChar n then
          (parseStrChars r3).map (fun p => (Char.ofNat n :: p.1, p.2))
        else none
      | _, _, _, _ => none
    | e :: r2 =>
      let esc : Option Char :=
        if e = '"' then some '"'
        else if e = '\\' then some '\\'
        else if e = '/' then some '/'
        else if e = 'b' then some '\x08'
        else if e = 'f' then some '\x0c'
        else if e = 'n' then some '\x0a'
        else if e = 'r' then some '\x0d'
        else if e = 't' then some '\x09'
        else none
      match esc with
      | some c => (parseStrChars r2).map (fun p => (c :: p.1, p.2))
      | none => none
  | c :: rest =>
      if c.toNat < 32 then none
      else (parseStrChars rest).map (fun p => (c :: p.1, p.2))

/-- Digit-string to number. -/
def natFromDigits (ds : List Char) : Nat :=
  List.foldl (fun acc c => acc * 10 + (c.toNat - 48)) 0 ds

/-- Split off a run of decimal digits. -/
def takeDigits (l : List Char) : List Char × List Char :=
  (l.takeWhile Char.isDigit, l.drop (l.takeWhile Char.isDigit).length)

/-- The integer part of a JSON number: `0`, or a digit run without a
leading zero. -/
def parseIntPart (input : List Char) : Option (List Char × List Char) :=
  match takeDigits input with
  | ([], _) => none
  | (ds, rest) => if 1 < ds.length ∧ ds.headD 'x' = '0' then none else some (ds, rest)

/-- The optional fraction part: a point followed by at least one digit
(`[]` when absent). -/
def parseFracPart : List Char → Option (List Char × List Char)
  | '.' :: rest =>
    (match takeDigits rest with
     | ([], _) => none
     | (ds, r) => some (ds, r))
  | l => some ([], l)

/-- The optional exponent part: `e`/`E`, an optional sign, and at least one
digit (`0` when absent). -/
def parseExpPart : List Char → Option (Int × List Char)
  | c :: rest =>
    if c = 'e' ∨ c = 'E' then
      match rest with
      | '+' :: r2 =>
        (match takeDigits r2 with
         | ([], _) => none
         | (ds, r) => some ((natFromDigits ds : Int), r))
      | '-' :: r2 =>
        (match takeDigits r2 with
         | ([], _) => none
         | (ds, r) => some (-(natFromDigits ds : Int), r))
      | r2 =>
        (match takeDigits r2 with
         | ([], _) => none
         | (ds, r) => some ((natFromDigits ds : Int), r))
    else some (0, c :: rest)
  | [] => some (0, [])

/-- Divide the mantissa by 10 up to `k` times while it remains divisible,
returning the mantissa and the divisions left undone. -/
def stripTrailingZeros : Int → Nat → Int × Nat
  | m, 0 => (m, 0)
  | m, Nat.succ k => if m % 10 = 0 then stripTrailingZeros (m / 10) k else (m, Nat.succ k)

/-- Canonical number value from a raw mantissa and decimal exponent. -/
def mkNum (m e : Int) : JsonValue :=
  if m = 0 then .num 0 0
  else if e < 0 then
    let p := stripTrailingZeros m (-e).toNat
    .num p.1 (-(p.2 : Int))
  else .num m e

/-- Parse the unsigned body of a JSON number (integer, fraction and
exponent parts), as raw mantissa digits and decimal exponent. -/
def parseNumberCore (input : List Char) : Option ((Nat × Int) × List Char) := do
  let (ids, r1) ← parseIntPart input
  let (fds, r2) ← parseFracPart r1
  let (ex, r3) ← parseExpPart r2
  pure ((natFromDigits (ids ++ fds), ex - (fds.length : Int)), r3)

/-- Parse a JSON number with optional minus sign: the full platform number
grammar `-? int frac? exp?`. -/
def parseNumber (input : List Char) : Option (JsonValue × List Char) :=
  match input with
  | '-' :: rest => (parseNumberCore rest).map (fun p => (mkNum (-(p.1.1 : Int)) p.1.2, p.2))
  | _ => (parseNumberCore input).map (fun p => (mkNum (p.1.1 : Int) p.1.2, p.2))

/-- The platform comparison `x > 0` on the parsed number: the exact decimal
`m * 10 ^ e` converts to a positive double exactly when it exceeds
`2 ^ (-1075)` — half the least positive subnormal; at or below that
magnitude round-half-to-even yields `+0` (so e.g. `1e-400 > 0` is false on
the platform), and every positive decimal at least `1` is positive as a
double (overflow gives `Infinity`, still positive). -/
def jsNumPos (m e : Int) : Bool :=
  decide (0 < m) &&
    (decide (0 ≤ e) || decide (Nat.pow 10 (-e).toNat < m.toNat * Nat.pow 2 1075))

mutual

/-- Recursive-descent parser for the modelled JSON fragment; `fuel` bounds
the recursion depth through containers. -/
def parseValue : Nat → List Char → Option (JsonValue × List Char)
  | 0, _ => none
  | Nat.succ fuel, input =>
    match skipWs input with
    | 'n' :: 'u' :: 'l' :: 'l' :: rest => some (.null, rest)
    | 't' :: 'r' :: 'u' :: 'e' :: rest => some (.bool true, rest)
    | 'f' :: 'a' :: 'l' :: 's' :: 'e' :: rest => some (.bool false, rest)
    | '"' :: rest => (parseStrChars rest).map (fun p => (.str (String.mk p.1), p.2))
    | '[' :: rest =>
      (match skipWs rest with
       | ']' :: r2 => some (.arr [], r2)
       | r2 => (parseElems fuel r2).map (fun p => (.arr p.1, p.2)))
    | '\x7b' :: rest =>
      (match skipWs rest with
       | '\x7d' :: r2 => some (.obj [], r2)
       | r2 => (parseMembers fuel r2).map (fun p => (.obj p.1, p.2)))
    | other => parseNumber other

/-- Parse one or more comma-separated array elements and the closing
bracket. -/
def parseElems : Nat → List Char → Option (List JsonValue × List Char)
  | 0, _ => none
  | Nat.succ fuel, input => do
    let (v, r1) ← parseValue fuel input
    match skipWs r1 with
    | ',' :: r2 => (parseElems fuel r2).map (fun p => (v :: p.1, p.2))
    | ']' :: r2 => some ([v], r2)
    | _ => none

/-- Parse one or more comma-separated object members and the closing
brace. -/
def parseMembers : Nat → List Char → Option (List (String × JsonValue) × List Char)
  | 0, _ => none
  | Nat.succ fuel, input =>
    match skipWs input with
    | '"' :: r0 => do
      let (k, r1) ← parseStrChars r0
      match skipWs r1 with
      | ':' :: r2 => do
        let (v, r3) ← parseValue fuel r2
        match skipWs r3 with
        | ',' :: r4 => (parseMembers fuel r4).map (fun p => ((String.mk k, v) :: p.1, p.2))
        | '\x7d' :: r4 => some ([(String.mk k, v)], r4)
        | _ => none
      | _ => none
    | _ => none

end

/-- The platform `JSON.parse`, restricted to the modelled fragment:
`none` models a thrown `SyntaxError`. -/
def jsonParse (s : String) : Option JsonValue :=
  match parseValue (s.length + 1) s.data with
  | some (v, rest) => if skipWs rest = [] then some v else none
  | none => none

example : jsonParse "null" = some .null := by rfl
example : jsonParse " 17 " = some (.num 17 0) := by rfl
example : jsonParse "-4" = some (.num (-4) 0) := by rfl
example : jsonParse "[1,true]" = some (.arr [.num 1 0, .bool true]) := by rfl
example : jsonParse "not json" = none := by rfl
example : jsonParse "05" = none := by rfl
example : jsonParse "1.5" = some (.num 15 (-1)) := by rfl
example : jsonParse "1.50" = some (.num 15 (-1)) := by rfl
example : jsonParse "1e3" = some (.num 1 3) := by rfl
example : jsonParse "-0.25" = some (.num (-25) (-2)) := by rfl
example : jsonParse "[1.5]" = some (.arr [.num 15 (-1)]) := by rfl
example : jsonParse "1." = none := by rfl
example : jsonParse "1e" = none := by rfl
example : jsonParse ".5" = none := by rfl
example : jsonStringify (.num 15 (-1)) = "1.5" := by rfl
example : jsonStringify (.num 5 (-2)) = "0.05" := by rfl
example : jsonStringify (.num (-25) (-1)) = "-2.5" := by rfl
example : jsonStringify (.num 1 3) = "1000" := by rfl
set_option maxRecDepth 20000 in
example : jsNumPos 15 (-1) = true := by rfl
set_option maxRecDepth 20000 in
example : jsNumPos 1 (-323) = true := by rfl
set_option maxRecDepth 20000 in
example : jsNumPos 1 (-400) = false := by rfl
example : jsNumPos (-4) 0 = false := by rfl
example : jsonStringify (.str "a\"b") = "\"a\\\"b\"" := by rfl
example :
    jsonParse (jsonStringify (.obj [("k", .str "v"), ("n", .num 3 0)])) =
      some (.obj [("k", .str "v"), ("n", .num 3 0)]) := by rfl

/-- Transient keypair data: Base64-encoded public and private key strings
(`KeyPairData` in `crypto.ts`). -/
structure KeyPairData where
  publicKey : String
  privateKey : String
deriving Repr, DecidableEq

/-- The error hierarchy of `storage.ts`.  In the source,
`StorageUnavailableError` and `DataIntegrityError` are subclasses of
`StorageError`; here each class is one constructor. -/
inductive StorageErr where
  | storageError (message : String)
  | storageUnavailable (message : String)
  | dataIntegrity (message : String)
deriving Repr, DecidableEq

/-- The browser's `localStorage`: an availability flag and the stored
key-value pairs. -/
structure LocalStorage where
  available : Bool
  items : List (String × String)
deriving Repr, DecidableEq

/-- One primitive `localStorage` operation, as recorded in the trace a
storage façade function returns. -/
inductive StorageOp where
  | get (key : String) (result : Option String)
  | set (key : String) (value : String)
  | remove (key : String)
deriving Repr, DecidableEq

/-- `localStorage.getItem`. -/
def getItem (key : String) (s : LocalStorage) : Option String :=
  s.items.lookup key

/-- `localStorage.setItem` (total: quota errors are not modelled). -/
def setItem (key value : String) (s : LocalStorage) : LocalStorage :=
  { s with items := (key, value) :: s.items.filter (fun p => p.1 != key) }

/-- `localStorage.removeItem`. -/
def removeItem (key : String) (s : LocalStorage) : LocalStorage :=
  { s with items := s.items.filter (fun p => p.1 != key) }

/-- Storage slot of the single persisted record (`STORAGE_KEY`). -/
def STORAGE_KEY : String := "keypair"

/-- Slot probed by the availability test. -/
def testStorageKey : String := "__storage_test__"

/-- Slot of the security audit trail. -/
def auditKey : String := "keygen_security_audit"

/-- Slot of the development-logging toggle. -/
def loggingToggleKey : String := "keygen_security_logging"

/-- `isLocalStorageAvailable`: probes the test slot when the underlying
store exists; unavailability (missing or throwing `localStorage`) is the
`available = false` state. -/
def isLocalStorageAvailable (s : LocalStorage) : Bool × LocalStorage × List StorageOp :=
  if s.available then
    (true, removeItem testStorageKey (setItem testStorageKey "test" s),
     [.set testStorageKey "test", .remove testStorageKey])
  else (false, s, [])

/-- The `StoredKeyPair` record `saveKeyPair` builds, as a JSON value:
the two keys, the fixed algorithm tag and the creation timestamp. -/
def storedKeyPairJson (kd : KeyPairData) (now : Nat) : JsonValue :=
  .obj [("publicKey", .str kd.publicKey), ("privateKey", .str kd.privateKey),
        ("algorithm", .str "Ed25519"), ("created", .num (now : Int) 0)]

/-- `saveKeyPair`.  `now` is `Date.now()`; a missing argument is `none`
(the `!keyData` check). -/
def saveKeyPair (now : Nat) (keyData : Option KeyPairData) (s : LocalStorage) :
    Except StorageErr Unit × LocalStorage × List StorageOp :=
  match isLocalStorageAvailable s with
  | (false, s1, t1) =>
    (.error (.storageUnavailable "Cannot save keypair: Local storage is not available. This may be due to private browsing mode or browser settings."),
     s1, t1)
  | (true, s1, t1) =>
    match keyData with
    | none => (.error (.storageError "Invalid key data: missing public or private key"), s1, t1)
    | some kd =>
      if kd.publicKey = "" ∨ kd.privateKey = "" then
        (.error (.storageError "Invalid key data: missing public or private key"), s1, t1)
      else
        let serializedData := jsonStringify (storedKeyPairJson kd now)
        (.ok (), setItem STORAGE_KEY serializedData s1, t1 ++ [.set STORAGE_KEY serializedData])

/-- Field access on a parsed JSON object (`data.name`): with duplicate keys
`JSON.parse` keeps the last occurrence, hence the reversed lookup. -/
def getField (fields : List (String × JsonValue)) (name : String) : Option JsonValue :=
  fields.reverse.lookup name

/-- `validateStoredKeyPair`: object with string `publicKey` / `privateKey`,
`algorithm === 'Ed25519'`, numeric `created`, both keys non-empty and
`created > 0` as the platform compares doubles (`jsNumPos`). -/
def validateStoredKeyPair (data : JsonValue) : Bool :=
  match data with
  | .obj fields =>
    match getField fields "publicKey", getField fields "privateKey",
          getField fields "algorithm", getField fields "created" with
    | some (.str publicKey), some (.str privateKey), some (.str algorithm),
      some (.num cm ce) =>
      algorithm == "Ed25519" && decide (0 < publicKey.length) &&
        decide (0 < privateKey.length) && jsNumPos cm ce
    | _, _, _, _ => false
  | _ => false

/-- Property access `data.name` on a validated record (a string field). -/
def getStrField (data : JsonValue) (name : String) : String :=
  match data with
  | .obj fields =>
    match getField fields name with
    | some (.str s) => s
    | _ => ""
  | _ => ""

/-- `loadKeyPair`: `.ok none` models the `null` return for an absent (or
falsy, i.e. empty) slot; JSON `SyntaxError` and failed validation are the
two `DataIntegrityError` paths. -/
def loadKeyPair (s : LocalStorage) :
    Except StorageErr (Option KeyPairData) × LocalStorage × List StorageOp :=
  match isLocalStorageAvailable s with
  | (false, s1, t1) =>
    (.error (.storageUnavailable "Cannot load keypair: Local storage is not available."), s1, t1)
  | (true, s1, t1) =>
    let serializedData := getItem STORAGE_KEY s1
    let t2 := t1 ++ [.get STORAGE_KEY serializedData]
    match serializedData with
    | none => (.ok none, s1, t2)
    | some data =>
      if data = "" then (.ok none, s1, t2)
      else
        match jsonParse data with
        | none =>
          (.error (.dataIntegrity "Stored keypair data is corrupted: invalid JSON format"), s1, t2)
        | some v =>
          if validateStoredKeyPair v then
            (.ok (some ⟨getStrField v "publicKey", getStrField v "privateKey"⟩), s1, t2)
          else
            (.error (.dataIntegrity "Stored keypair data is corrupted or in an invalid format"), s1, t2)

/-- The 65-character alphabet of `generateSecureRandomString`. -/
def secureChars : List Char :=
  "ABCDEFGHIJKLMNOPQRSTUVWXYZabcdefghijklmnopqrstuvwxyz0123456789+/=".data

/-- `generateSecureRandomString` on the `crypto.getRandomValues` path:
`randomBytes` is the platform-filled `Uint8Array`, read at indices
`0 .. length - 1`; each byte selects `chars[byte % chars.length]`.  (The
`byte !== undefined` guard always holds: every index read is in range.) -/
def generateSecureRandomString (length : Nat) (randomBytes : Nat → Fin 256) : String :=
  String.mk ((List.range length).map
    (fun i => secureChars.getD ((randomBytes i).val % secureChars.length) 'A'))

/-- The audit entry `logSecurityEvent` pushes: the event name, a timestamp,
and the metadata with its `userAgent` field re-sanitised (`substring(0, 50)`
when a truthy string, dropped otherwise — an `undefined` property is omitted
by `JSON.stringify`). -/
def auditEntry (now : Nat) (event : String) (metadata : List (String × JsonValue)) : JsonValue :=
  let ua : Option String :=
    match getField metadata "userAgent" with
    | some (.str u) => if u = "" then none else some (u.take 50)
    | _ => none
  let metadata' :=
    match ua with
    | some v =>
      if metadata.any (fun p => p.1 == "userAgent") then
        metadata.map (fun p => if p.1 == "userAgent" then (p.1, JsonValue.str v) else p)
      else metadata ++ [("userAgent", JsonValue.str v)]
    | none => metadata.filter (fun p => p.1 != "userAgent")
  .obj [("event", .str event), ("timestamp", .num now 0), ("metadata", .obj metadata')]

/-- The prior audit entries `logSecurityEvent` continues from: an absent,
empty or unparsable slot starts fresh; a slot holding a JSON array yields
its elements; a slot holding other valid JSON makes `auditLog.push` throw
(`none`), so the outer catch silently abandons logging. -/
def parseAuditSlot : Option String → Option (List JsonValue)
  | none => some []
  | some a =>
    if a = "" then some []
    else
      match jsonParse a with
      | none => some []
      | some (.arr xs) => some xs
      | some _ => none

/-- `logSecurityEvent`: reads the development toggle (unless `import.meta.env.DEV`
short-circuits), parses the audit slot, pushes the entry, keeps only the last
50 entries, and writes the slot back; on `parseAuditSlot = none` the slot is
left untouched. -/
def logSecurityEvent (devLog : Bool) (now : Nat) (event : String)
    (metadata : List (String × JsonValue)) (s : LocalStorage) :
    LocalStorage × List StorageOp :=
  let t0 : List StorageOp :=
    if devLog then [] else [.get loggingToggleKey (getItem loggingToggleKey s)]
  let existingAudit := getItem auditKey s
  let t1 := t0 ++ [.get auditKey existingAudit]
  match parseAuditSlot existingAudit with
  | none => (s, t1)
  | some xs =>
    let pushed := xs ++ [auditEntry now event metadata]
    let capped := if 50 < pushed.length then pushed.drop (pushed.length - 50) else pushed
    let serialized := jsonStringify (.arr capped)
    (setItem auditKey serialized s, t1 ++ [.set auditKey serialized])

/-- `clearKeyPair` (the enhanced variant): when a record exists, overwrite
the slot with a random filler string of the same length, then remove it;
log the security event; then verify removal (retrying once). -/
def clearKeyPair (randomBytes : Nat → Fin 256) (now : Nat) (devLog : Bool)
    (userAgent : Option String) (s : LocalStorage) :
    Except StorageErr Unit × LocalStorage × List StorageOp :=
  match isLocalStorageAvailable s with
  | (false, s1, t1) =>
    (.error (.storageUnavailable "Cannot clear keypair: Local storage is not available."), s1, t1)
  | (true, s1, t1) =>
    let existingData := getItem STORAGE_KEY s1
    let t2 := t1 ++ [.get STORAGE_KEY existingData]
    let step : LocalStorage × List StorageOp :=
      match existingData with
      | some data =>
        let randomData := generateSecureRandomString data.length randomBytes
        (removeItem STORAGE_KEY (setItem STORAGE_KEY randomData s1),
         t2 ++ [.set STORAGE_KEY randomData, .remove STORAGE_KEY])
      | none => (removeItem STORAGE_KEY s1, t2 ++ [.remove STORAGE_KEY])
    let ua50 : String :=
      match userAgent with
      | some ua => if ua = "" then "unknown" else ua.take 50
      | none => "unknown"
    let logged := logSecurityEvent devLog now "keypair_cleared"
      [("timestamp", .num now 0), ("hadExistingKeypair", .bool existingData.isSome),
       ("userAgent", .str ua50)] step.1
    let t5 := step.2 ++ logged.2
    let verificationData := getItem STORAGE_KEY logged.1
    let t6 := t5 ++ [.get STORAGE_KEY verificationData]
    match verificationData with
    | none => (.ok (), logged.1, t6)
    | some _ =>
      let s5 := removeItem STORAGE_KEY logged.1
      let t7 := t6 ++ [.remove STORAGE_KEY]
      let finalVerification := getItem STORAGE_KEY s5
      let t8 := t7 ++ [.get STORAGE_KEY finalVerification]
      match finalVerification with
      | none => (.ok (), s5, t8)
      | some _ => (.error (.storageError "Failed to completely remove keypair from storage"), s5, t8)

set_option maxRecDepth 20000 in
example :
    (loadKeyPair ⟨true,
      [("keypair",
        "\x7b\"publicKey\":\"a\",\"privateKey\":\"b\",\"algorithm\":\"Ed25519\",\"created\":1.5\x7d")]⟩).1
      = .ok (some ⟨"a", "b"⟩) := by rfl
example : parseAuditSlot (some "[1.5]") = some [.num 15 (-1)] := by rfl
example : parseAuditSlot (some "1.5") = none := by rfl
example : parseAuditSlot (some "not json") = some [] := by rfl

/-- The Base64 alphabet. -/
def b64chars : List Char :=
  "ABCDEFGHIJKLMNOPQRSTUVWXYZabcdefghijklmnopqrstuvwxyz0123456789+/".data

/-- Alphabet character of a sextet. -/
def encodeB64Char (i : Nat) : Char := b64chars.getD i 'A'

/-- Sextet of an alphabet character (`none` off the alphabet). -/
def decodeB64Char (c : Char) : Option Nat :=
  b64chars.findIdx? (fun x => x == c)

/-- Core of the platform `btoa`: three code units become four alphabet
characters, a final group of one or two is padded with `=`. -/
def btoaChunks : List Nat → List Char
  | b1 :: b2 :: b3 :: rest =>
    encodeB64Char (b1 / 4) :: encodeB64Char ((b1 % 4) * 16 + b2 / 16) ::
      encodeB64Char ((b2 % 16) * 4 + b3 / 64) :: encodeB64Char (b3 % 64) :: btoaChunks rest
  | [b1, b2] =>
    [encodeB64Char (b1 / 4), encodeB64Char ((b1 % 4) * 16 + b2 / 16),
     encodeB64Char ((b2 % 16) * 4), '=']
  | [b1] => [encodeB64Char (b1 / 4), encodeB64Char ((b1 % 4) * 16), '=', '=']
  | [] => []

/-- The platform `btoa`: fails (`InvalidCharacterError`) on a code unit
above 255. -/
def btoa (input : List Char) : Option (List Char) :=
  if input.all (fun c => c.toNat ≤ 255) then some (btoaChunks (input.map Char.toNat))
  else none

/-- ASCII whitespace stripped by forgiving-base64. -/
def isAtobWs (c : Char) : Bool :=
  c = ' ' || c = '\x09' || c = '\x0a' || c = '\x0c' || c = '\x0d'

/-- Group-wise forgiving-base64 decode (after whitespace removal): four
characters give three code units; `=` padding, or a final group of two or
three characters, closes the input (two characters give one unit, three give
two, discarding leftover bits); anything else — a group of one, `=` out of
place, or a character off the alphabet — fails. -/
def atobChunks : List Char → Option (List Nat)
  | [] => some []
  | [c1, c2] =>
    (match decodeB64Char c1, decodeB64Char c2 with
     | some s1, some s2 => some [s1 * 4 + s2 / 16]
     | _, _ => none)
  | [c1, c2, c3] =>
    (match decodeB64Char c1, decodeB64Char c2, decodeB64Char c3 with
     | some s1, some s2, some s3 => some [s1 * 4 + s2 / 16, (s2 % 16) * 16 + s3 / 4]
     | _, _, _ => none)
  | c1 :: c2 :: c3 :: c4 :: rest =>
    if c3 = '=' then
      if c4 = '=' ∧ rest = [] then
        (match decodeB64Char c1, decodeB64Char c2 with
         | some s1, some s2 => some [s1 * 4 + s2 / 16]
         | _, _ => none)
      else none
    else if c4 = '=' then
      if rest = [] then
        (match decodeB64Char c1, decodeB64Char c2, decodeB64Char c3 with
         | some s1, some s2, some s3 => some [s1 * 4 + s2 / 16, (s2 % 16) * 16 + s3 / 4]
         | _, _, _ => none)
      else none
    else
      (match decodeB64Char c1, decodeB64Char c2, decodeB64Char c3, decodeB64Char c4,
             atobChunks rest with
       | some s1, some s2, some s3, some s4, some bs =>
         some ((s1 * 4 + s2 / 16) :: ((s2 % 16) * 16 + s3 / 4) :: ((s3 % 4) * 64 + s4) :: bs)
       | _, _, _, _, _ => none)
  | [_] => none

/-- The platform `atob` (WHATWG forgiving-base64 decode), producing the
decoded code-unit values. -/
def atobList (input : List Char) : Option (List Nat) :=
  atobChunks (input.filter (fun c => !(isAtobWs c)))

/-- The platform `atob` as a string transformer (each decoded value is one
code unit of the binary string). -/
def atob (input : List Char) : Option (List Char) :=
  (atobList input).map (List.map Char.ofNat)

/-- Error hierarchy of `crypto.ts`: `UnsupportedBrowserError`,
`KeyGenerationError` and `KeyImportExportError` are subclasses of
`CryptoError`; `cryptoError` is the base class itself. -/
inductive CryptoErr where
  | cryptoError (message : String)
  | unsupportedBrowser (message : String)
  | keyGeneration (message : String)
  | keyImportExport (message : String)
deriving Repr, DecidableEq

/-- `encodeKey`: view the buffer's bytes, build the binary string code unit
by code unit, and `btoa` it.  On byte input the `btoa` validity check always
passes; its impossible failure is mapped to `""`. -/
def encodeKey (buffer : List Nat) : String :=
  let binary := buffer.map (fun b => Char.ofNat b)
  match btoa binary with
  | some chars => String.mk chars
  | none => ""

/-- The message of the platform's `InvalidCharacterError` from `atob` (its
exact text is platform specific and irrelevant to every claim). -/
def atobErrorMessage : String := "The string to be decoded is not correctly encoded."

/-- `decodeKey`: rejects the empty string, `atob`s the input and reads the
code units back as bytes (the `Uint8Array` store truncates modulo 256).
Both failure paths throw the base `CryptoError`. -/
def decodeKey (encodedKey : String) : Except CryptoErr (List Nat) :=
  if encodedKey = "" then
    .error (.cryptoError "Invalid input: encoded key must be a non-empty string")
  else
    match atob encodedKey.data with
    | some binary => .ok (binary.map (fun c => c.toNat % 256))
    | none => .error (.cryptoError ("Failed to decode Base64 key: " ++ atobErrorMessage))

/-- Does `pat` occur starting at this or a later position? -/
def includesFrom (pat : List Char) : List Char → Bool
  | [] => pat.isPrefixOf []
  | c :: rest => pat.isPrefixOf (c :: rest) || includesFrom pat rest

/-- `String.prototype.includes`. -/
def strIncludes (s pat : String) : Bool :=
  includesFrom pat.data s.data

/-- Outcome of the platform `crypto.subtle.generateKey` call: a resolved
object (with or without the two key properties), a rejection with a DOM
error name and message, or a rejection with a non-`Error` value. -/
inductive GenOutcome where
  | success (hasPublicKey hasPrivateKey : Bool)
  | failure (name message : String)
  | thrownValue
deriving Repr, DecidableEq

/-- The opaque `CryptoKeyPair` handle: all the verified code inspects is
the presence of its two properties. -/
structure CryptoKeyPairHandle where
  hasPublicKey : Bool
  hasPrivateKey : Bool
deriving Repr, DecidableEq

/-- Platform environment for `generateKeyPair`: whether `crypto.subtle`
exists (`isWebCryptoSupported`), whether the platform implements Ed25519,
and what the `generateKey` call does. -/
structure CryptoEnv where
  webCrypto : Bool
  ed25519 : Bool
  genOutcome : GenOutcome
deriving Repr, DecidableEq

/-- Consistency with the Web Crypto specification: a platform that lacks
Ed25519 rejects `generateKey` with a `NotSupportedError`. -/
def CryptoEnv.consistent (e : CryptoEnv) : Prop :=
  e.ed25519 = false → ∃ m, e.genOutcome = .failure "NotSupportedError" m

/-- `generateKeyPair`: unsupported-browser guard, the platform call, the
keypair-shape check, and the catch clause's error classification (a
`NotSupportedError` name or an `Ed25519` mention in the message is mapped
to `UnsupportedBrowserError`, everything else to `KeyGenerationError`). -/
def generateKeyPair (e : CryptoEnv) : Except CryptoErr CryptoKeyPairHandle :=
  if e.webCrypto = false then
    .error (.unsupportedBrowser "Web Crypto API is not supported in this browser. Please use a modern browser like Chrome, Firefox, or Safari.")
  else
    match e.genOutcome with
    | .success hasPub hasPriv =>
      if hasPub && hasPriv then .ok ⟨hasPub, hasPriv⟩
      else .error (.keyGeneration "Generated key is not a valid keypair")
    | .failure name message =>
      if name == "NotSupportedError" || strIncludes message "Ed25519" then
        .error (.unsupportedBrowser "Ed25519 algorithm is not supported in this browser. Please use a browser that supports Ed25519 cryptography.")
      else .error (.keyGeneration ("Unable to generate keypair: " ++ message))
    | .thrownValue => .error (.keyGeneration "An unexpected error occurred during key generation")

/-- Outcome of one platform `crypto.subtle.importKey` call. -/
inductive ImportOutcome where
  | success
  | failure (name message : String)
deriving Repr, DecidableEq

/-- The catch clause of `importKeyPair` applied to one platform failure. -/
def importClassify : ImportOutcome → Option CryptoErr
  | .success => none
  | .failure name message =>
    if name == "NotSupportedError" then
      some (.unsupportedBrowser "Ed25519 algorithm is not supported in this browser or key format is invalid")
    else if name == "DataError" then
      some (.keyImportExport "Invalid key format: the provided keys are corrupted or in an unsupported format")
    else some (.keyImportExport ("Unable to import keypair: " ++ message))

/-- `importKeyPair`: input validation, unsupported-browser guard, then
decode and import the public key, decode and import the private key.  A
`CryptoError` thrown by `decodeKey` is rethrown unchanged by the
`error instanceof CryptoError` arm of the catch clause. -/
def importKeyPair (webCrypto : Bool) (importPublic importPrivate : ImportOutcome)
    (keyData : Option KeyPairData) : Except CryptoErr Unit :=
  match keyData with
  | none => .error (.keyImportExport "Invalid key data: missing public or private key")
  | some kd =>
    if kd.publicKey = "" ∨ kd.privateKey = "" then
      .error (.keyImportExport "Invalid key data: missing public or private key")
    else if webCrypto = false then
      .error (.unsupportedBrowser "Web Crypto API is not supported in this browser. Cannot import keys.")
    else
      match decodeKey kd.publicKey with
      | .error e => .error e
      | .ok _ =>
        match importClassify importPublic with
        | some err => .error err
        | none =>
          match decodeKey kd.privateKey with
          | .error e => .error e
          | .ok _ =>
            match importClassify importPrivate with
            | some err => .error err
            | none => .ok ()

example : encodeKey [77, 97, 110] = "TWFu" := by rfl
example : encodeKey [77, 97] = "TWE=" := by rfl
example : encodeKey [77] = "TQ==" := by rfl
example : decodeKey "TWFu" = .ok [77, 97, 110] := by rfl
example : decodeKey "TWE=" = .ok [77, 97] := by rfl
example : decodeKey "TWE" = .ok [77, 97] := by rfl
example : decodeKey "TQ==" = .ok [77] := by rfl
example : atobList "!!!".data = none := by rfl
example : atobList "====".data = none := by rfl

theorem lookup_filterOut_ne {l : List (String × String)} {k k' : String} (h : k' ≠ k) :
    (l.filter (fun p => p.1 != k)).lookup k' = l.lookup k' := by
  induction l with
  | nil => rfl
  | cons a t ih =>
    obtain ⟨a1, a2⟩ := a
    rcases eq_or_ne a1 k with hak | hak
    · subst hak
      have h1 : (a1 != a1) = false := by simp
      have h2 : (k' == a1) = false := beq_eq_false_iff_ne.mpr h
      simp [List.filter_cons, h1, h2, List.lookup, ih]
    · have h1 : (a1 != k) = true := bne_iff_ne.mpr hak
      rcases eq_or_ne k' a1 with hk | hk
      · subst hk
        simp [List.filter_cons, h1, List.lookup]
      · have h2 : (k' == a1) = false := beq_eq_false_iff_ne.mpr hk
        simp [List.filter_cons, h1, h2, List.lookup, ih]

theorem lookup_filterOut_self (l : List (String × String)) (k : String) :
    (l.filter (fun p => p.1 != k)).lookup k = none := by
  induction l with
  | nil => rfl
  | cons a t ih =>
    obtain ⟨a1, a2⟩ := a
    rcases eq_or_ne a1 k with hak | hak
    · subst hak
      have h1 : (a1 != a1) = false := by simp
      simp [List.filter_cons, h1, ih]
    · have h1 : (a1 != k) = true := bne_iff_ne.mpr hak
      have h2 : (k == a1) = false := beq_eq_false_iff_ne.mpr (Ne.symm hak)
      simp [List.filter_cons, h1, h2, List.lookup, ih]

theorem getItem_setItem_self (k v : String) (s : LocalStorage) :
    getItem k (setItem k v s) = some v := by
  simp [getItem, setItem, List.lookup]

theorem getItem_setItem_ne {k k' : String} (v : String) (s : LocalStorage) (h : k' ≠ k) :
    getItem k' (setItem k v s) = getItem k' s := by
  have h2 : (k' == k) = false := beq_eq_false_iff_ne.mpr h
  simp [getItem, setItem, List.lookup, h2, lookup_filterOut_ne h]

theorem getItem_removeItem_self (k : String) (s : LocalStorage) :
    getItem k (removeItem k s) = none :=
  lookup_filterOut_self s.items k

theorem getItem_removeItem_ne {k k' : String} (s : LocalStorage) (h : k' ≠ k) :
    getItem k' (removeItem k s) = getItem k' s :=
  lookup_filterOut_ne h

theorem available_setItem (k v : String) (s : LocalStorage) :
    (setItem k v s).available = s.available := rfl

theorem available_removeItem (k : String) (s : LocalStorage) :
    (removeItem k s).available = s.available := rfl

theorem getItem_availCheck (s : LocalStorage) {k : String} (h : k ≠ testStorageKey) :
    getItem k (isLocalStorageAvailable s).2.1 = getItem k s := by
  unfold isLocalStorageAvailable
  by_cases ha : s.available
  · simp [ha, getItem_removeItem_ne _ h, getItem_setItem_ne _ _ h]
  · simp [ha]

theorem availCheck_available (s : LocalStorage) :
    ((isLocalStorageAvailable s).2.1).available = s.available := by
  unfold isLocalStorageAvailable
  by_cases ha : s.available <;> simp [ha, available_setItem, available_removeItem]

theorem availCheck_fst (s : LocalStorage) :
    (isLocalStorageAvailable s).1 = s.available := by
  unfold isLocalStorageAvailable
  by_cases ha : s.available <;> simp [ha]

theorem logSecurityEvent_getItem_ne (dev : Bool) (now : Nat) (ev : String)
    (md : List (String × JsonValue)) (s : LocalStorage) {k : String} (h : k ≠ auditKey) :
    getItem k (logSecurityEvent dev now ev md s).1 = getItem k s := by
  cases hp : parseAuditSlot (getItem auditKey s) <;>
    simp [logSecurityEvent, hp, getItem_setItem_ne _ _ h]

theorem logSecurityEvent_available (dev : Bool) (now : Nat) (ev : String)
    (md : List (String × JsonValue)) (s : LocalStorage) :
    ((logSecurityEvent dev now ev md s).1).available = s.available := by
  cases hp : parseAuditSlot (getItem auditKey s) <;>
    simp [logSecurityEvent, hp, available_setItem]

theorem storageKey_ne_test : STORAGE_KEY ≠ testStorageKey := by decide

theorem storageKey_ne_audit : STORAGE_KEY ≠ auditKey := by decide

theorem storageKey_ne_toggle : STORAGE_KEY ≠ loggingToggleKey := by decide

theorem getD_mem {α : Type} {l : List α} {i : Nat} (h : i < l.length) (d : α) :
    l.getD i d ∈ l := by
  rw [List.getD_eq_getElem l d h]
  exact List.getElem_mem h

theorem generateSecureRandomString_length (n : Nat) (rb : Nat → Fin 256) :
    (generateSecureRandomString n rb).length = n := by
  simp [generateSecureRandomString, String.length]

/-- C9: for every non-negative length `n`, `generateSecureRandomString(n)`
returns a string of exactly `n` characters, each drawn from the 65-character
alphabet A–Z, a–z, 0–9, `+`, `/`, `=` (in particular the empty string for
`n = 0`); this is the filler used to overwrite the storage slot during
clearing. -/
theorem generateSecureRandomString_spec (n : Nat) (randomBytes : Nat → Fin 256) :
    (generateSecureRandomString n randomBytes).length = n ∧
    (∀ c ∈ (generateSecureRandomString n randomBytes).data, c ∈ secureChars) ∧
    generateSecureRandomString 0 randomBytes = "" ∧
    secureChars.length = 65 := by
  refine ⟨generateSecureRandomString_length n randomBytes, ?_, rfl, rfl⟩
  intro c hc
  simp only [generateSecureRandomString, List.mem_map, List.mem_range] at hc
  obtain ⟨i, _, hceq⟩ := hc
  rw [← hceq]
  exact getD_mem (Nat.mod_lt _ (by decide)) 'A'

/-- C10: for every `keyData` that is missing or has an empty `publicKey` or
`privateKey`, and for every prior storage state, `saveKeyPair` throws a
`StorageError` (the base-class `Invalid key data` error when storage is
available) and leaves the keypair slot unchanged: no write to the slot
occurs. -/
theorem saveKeyPair_invalid_noWrite (now : Nat) (keyData : Option KeyPairData)
    (s : LocalStorage)
    (h : keyData = none ∨ ∃ kd, keyData = some kd ∧ (kd.publicKey = "" ∨ kd.privateKey = "")) :
    (∃ e, (saveKeyPair now keyData s).1 = .error e) ∧
    (s.available = true →
      (saveKeyPair now keyData s).1 =
        .error (.storageError "Invalid key data: missing public or private key")) ∧
    getItem STORAGE_KEY (saveKeyPair now keyData s).2.1 = getItem STORAGE_KEY s ∧
    (∀ v, StorageOp.set STORAGE_KEY v ∉ (saveKeyPair now keyData s).2.2) := by
  by_cases ha : s.available = true
  · have hsave : saveKeyPair now keyData s =
        (.error (.storageError "Invalid key data: missing public or private key"),
         removeItem testStorageKey (setItem testStorageKey "test" s),
         [.set testStorageKey "test", .remove testStorageKey]) := by
      rcases h with hnone | ⟨kd, hkd, hempty⟩
      · subst hnone
        simp [saveKeyPair, isLocalStorageAvailable, ha]
      · subst hkd
        simp [saveKeyPair, isLocalStorageAvailable, ha, hempty]
    rw [hsave]
    refine ⟨⟨_, rfl⟩, fun _ => rfl, ?_, ?_⟩
    · rw [getItem_removeItem_ne _ storageKey_ne_test,
        getItem_setItem_ne _ _ storageKey_ne_test]
    · intro v hv
      simp [STORAGE_KEY, testStorageKey] at hv
  · have ha' : s.available = false := by simpa using ha
    have hsave : saveKeyPair now keyData s =
        (.error (.storageUnavailable "Cannot save keypair: Local storage is not available. This may be due to private browsing mode or browser settings."),
         s, []) := by
      simp [saveKeyPair, isLocalStorageAvailable, ha']
    rw [hsave]
    exact ⟨⟨_, rfl⟩, fun hc => absurd hc (by simp [ha']), rfl, by simp⟩

/-- Witness for C10 at a concrete input: missing key data on an available
empty store. -/
theorem saveKeyPair_invalid_noWrite_witness :
    (∃ e, (saveKeyPair 5 none ⟨true, []⟩).1 = .error e) ∧
    ((⟨true, []⟩ : LocalStorage).available = true →
      (saveKeyPair 5 none ⟨true, []⟩).1 =
        .error (.storageError "Invalid key data: missing public or private key")) ∧
    getItem STORAGE_KEY (saveKeyPair 5 none ⟨true, []⟩).2.1 =
      getItem STORAGE_KEY (⟨true, []⟩ : LocalStorage) ∧
    (∀ v, StorageOp.set STORAGE_KEY v ∉ (saveKeyPair 5 none ⟨true, []⟩).2.2) :=
  saveKeyPair_invalid_noWrite 5 none ⟨true, []⟩ (Or.inl rfl)

theorem clearKeyPair_ok_of_available (rb : Nat → Fin 256) (now : Nat) (dev : Bool)
    (ua : Option String) (s : LocalStorage) (h : s.available = true) :
    (clearKeyPair rb now dev ua s).1 = .ok () ∧
    getItem STORAGE_KEY (clearKeyPair rb now dev ua s).2.1 = none ∧
    ((clearKeyPair rb now dev ua s).2.1).available = true := by
  cases hex : getItem STORAGE_KEY (removeItem testStorageKey (setItem testStorageKey "test" s)) <;>
    simp [clearKeyPair, isLocalStorageAvailable, h, hex, logSecurityEvent_getItem_ne,
      getItem_removeItem_self, logSecurityEvent_available, available_removeItem,
      available_setItem, storageKey_ne_audit]

theorem loadKeyPair_empty (s : LocalStorage) (h : s.available = true)
    (e : getItem STORAGE_KEY s = none) : (loadKeyPair s).1 = .ok none := by
  simp [loadKeyPair, isLocalStorageAvailable, h, getItem_removeItem_ne, getItem_setItem_ne,
    storageKey_ne_test, e]

/-- C2: after `clearKeyPair()` returns successfully, the fixed storage slot
no longer contains the previously stored keypair record (it is empty), and a
subsequent `loadKeyPair()` returns absence (`null`) rather than any keypair
data. -/
theorem clearKeyPair_then_load_none (randomBytes : Nat → Fin 256) (now : Nat)
    (devLog : Bool) (userAgent : Option String) (s : LocalStorage)
    (h : (clearKeyPair randomBytes now devLog userAgent s).1 = .ok ()) :
    getItem STORAGE_KEY (clearKeyPair randomBytes now devLog userAgent s).2.1 = none ∧
    (loadKeyPair (clearKeyPair randomBytes now devLog userAgent s).2.1).1 = .ok none := by
  by_cases ha : s.available = true
  · obtain ⟨-, h2, h3⟩ := clearKeyPair_ok_of_available randomBytes now devLog userAgent s ha
    exact ⟨h2, loadKeyPair_empty _ h3 h2⟩
  · exfalso
    have ha' : s.available = false := by simpa using ha
    simp [clearKeyPair, isLocalStorageAvailable, ha'] at h

/-- Witness for C2 at a concrete input: an available store holding a
record under the keypair slot. -/
theorem clearKeyPair_then_load_none_witness :
    getItem STORAGE_KEY
        (clearKeyPair (fun _ => 0) 7 false none ⟨true, [("keypair", "x")]⟩).2.1 = none ∧
    (loadKeyPair (clearKeyPair (fun _ => 0) 7 false none ⟨true, [("keypair", "x")]⟩).2.1).1 =
      .ok none :=
  clearKeyPair_then_load_none (fun _ => 0) 7 false none ⟨true, [("keypair", "x")]⟩ (by rfl)

/-- C4: when the fixed slot holds a stored record, `clearKeyPair()` first
overwrites the slot with random filler — a random string of the same length
as the existing serialized data — and only then removes the slot, before
returning: in the operation trace the overwrite of the slot precedes its
removal, and no write or removal of the slot happens before the overwrite. -/
theorem clearKeyPair_overwrite_then_remove (rb : Nat → Fin 256) (now : Nat) (dev : Bool)
    (ua : Option String) (s : LocalStorage) (data : String)
    (h : s.available = true) (g : getItem STORAGE_KEY s = some data) :
    ∃ t1 t2 t3,
      (clearKeyPair rb now dev ua s).2.2 =
        t1 ++ StorageOp.set STORAGE_KEY (generateSecureRandomString data.length rb) ::
          (t2 ++ StorageOp.remove STORAGE_KEY :: t3) ∧
      (generateSecureRandomString data.length rb).length = data.length ∧
      (∀ v, StorageOp.set STORAGE_KEY v ∉ t1) ∧
      StorageOp.remove STORAGE_KEY ∉ t1 ∧
      StorageOp.remove STORAGE_KEY ∉ t2 := by
  have hg1 : getItem STORAGE_KEY (removeItem testStorageKey (setItem testStorageKey "test" s)) =
      some data := by
    rw [getItem_removeItem_ne _ storageKey_ne_test, getItem_setItem_ne _ _ storageKey_ne_test]
    exact g
  have key : ∃ rest, (clearKeyPair rb now dev ua s).2.2 =
      [StorageOp.set testStorageKey "test", StorageOp.remove testStorageKey,
       StorageOp.get STORAGE_KEY (some data),
       StorageOp.set STORAGE_KEY (generateSecureRandomString data.length rb),
       StorageOp.remove STORAGE_KEY] ++ rest := by
    simp [clearKeyPair, isLocalStorageAvailable, h, hg1, logSecurityEvent_getItem_ne,
      getItem_removeItem_self, storageKey_ne_audit]
  obtain ⟨rest, htr⟩ := key
  refine ⟨[StorageOp.set testStorageKey "test", StorageOp.remove testStorageKey,
           StorageOp.get STORAGE_KEY (some data)], [], rest, ?_, ?_, ?_, ?_, ?_⟩
  · rw [htr]; simp
  · exact generateSecureRandomString_length data.length rb
  · intro v hv
    simp [STORAGE_KEY, testStorageKey] at hv
  · intro hv
    simp [STORAGE_KEY, testStorageKey] at hv
  · intro hv
    simp at hv

/-- Witness for C4 at a concrete input: an available store whose keypair
slot holds a two-character record. -/
theorem clearKeyPair_overwrite_then_remove_witness :
    ∃ t1 t2 t3,
      (clearKeyPair (fun _ => 0) 7 false none ⟨true, [("keypair", "ab")]⟩).2.2 =
        t1 ++ StorageOp.set STORAGE_KEY (generateSecureRandomString "ab".length (fun _ => 0)) ::
          (t2 ++ StorageOp.remove STORAGE_KEY :: t3) ∧
      (generateSecureRandomString "ab".length (fun _ => 0)).length = "ab".length ∧
      (∀ v, StorageOp.set STORAGE_KEY v ∉ t1) ∧
      StorageOp.remove STORAGE_KEY ∉ t1 ∧
      StorageOp.remove STORAGE_KEY ∉ t2 :=
  clearKeyPair_overwrite_then_remove (fun _ => 0) 7 false none ⟨true, [("keypair", "ab")]⟩
    "ab" rfl rfl

theorem string_length_pos_iff {p : String} : 0 < p.length ↔ p ≠ "" := by
  constructor
  · intro h he
    subst he
    simp at h
  · intro h
    rcases p with ⟨l⟩
    cases l with
    | nil => exact absurd rfl h
    | cons c t => simp [String.length]

theorem validateStoredKeyPair_iff (v : JsonValue) :
    validateStoredKeyPair v = true ↔
      ∃ fs p q cm ce, v = .obj fs ∧
        getField fs "publicKey" = some (.str p) ∧ p ≠ "" ∧
        getField fs "privateKey" = some (.str q) ∧ q ≠ "" ∧
        getField fs "algorithm" = some (.str "Ed25519") ∧
        getField fs "created" = some (.num cm ce) ∧ jsNumPos cm ce = true := by
  constructor
  · intro hv
    cases v with
    | obj fs =>
      simp only [validateStoredKeyPair] at hv
      split at hv
      · next _ _ _ _ p q alg cm ce hpk hpr halg hcr =>
        simp only [Bool.and_eq_true, beq_iff_eq, decide_eq_true_eq] at hv
        obtain ⟨⟨⟨halg2, hp⟩, hq⟩, hn⟩ := hv
        subst halg2
        exact ⟨fs, p, q, cm, ce, rfl, hpk, string_length_pos_iff.mp hp, hpr,
          string_length_pos_iff.mp hq, halg, hcr, hn⟩
      · simp at hv
    | null => simp [validateStoredKeyPair] at hv
    | bool b => simp [validateStoredKeyPair] at hv
    | num cm ce => simp [validateStoredKeyPair] at hv
    | str t => simp [validateStoredKeyPair] at hv
    | arr xs => simp [validateStoredKeyPair] at hv
  · rintro ⟨fs, p, q, cm, ce, rfl, hpk, hp, hpr, hq, halg, hcr, hn⟩
    simp [validateStoredKeyPair, hpk, hpr, halg, hcr,
      string_length_pos_iff.mpr hp, string_length_pos_iff.mpr hq, hn]

/-- The C6 claim's classification property, stated in the spec's words over
the modelled platform environment: `generateKeyPair` fails with
`UnsupportedBrowserError` exactly when the platform lacks the Web Crypto API
or the Ed25519 algorithm (a platform lacking Ed25519 signals it by rejecting
`generateKey` with a `NotSupportedError`, the `consistent` premise). -/
def generateClassificationAsSpecified : Prop :=
  ∀ e : CryptoEnv, e.consistent →
    ((∃ m, generateKeyPair e = .error (.unsupportedBrowser m)) ↔
      (e.webCrypto = false ∨ e.ed25519 = false))

/-- C6 counterexample: a platform with Web Crypto and Ed25519 support whose
`generateKey` call rejects with an `OperationError` mentioning `Ed25519` in
its message is classified as `UnsupportedBrowserError` by the
`error.message.includes('Ed25519')` test, although nothing is lacking — so
the claimed "if and only if" is false. -/
theorem generateKeyPair_classification_counterexample :
    ¬ generateClassificationAsSpecified := by
  intro hall
  have hc : CryptoEnv.consistent ⟨true, true, .failure "OperationError" "Ed25519 operation failed"⟩ := by
    intro hf
    simp at hf
  have hgen : generateKeyPair ⟨true, true, .failure "OperationError" "Ed25519 operation failed"⟩ =
      .error (.unsupportedBrowser "Ed25519 algorithm is not supported in this browser. Please use a browser that supports Ed25519 cryptography.") := by
    rfl
  have := (hall ⟨true, true, .failure "OperationError" "Ed25519 operation failed"⟩ hc).mp
    ⟨_, hgen⟩
  rcases this with hw | he
  · simp at hw
  · simp at he

/-- C6 (amended): `generateKeyPair` fails with `UnsupportedBrowserError`
exactly when the platform lacks the Web Crypto API, or the platform call
rejects with a `NotSupportedError`, or with an error whose message contains
`Ed25519`; every other rejection (and a resolved value missing either key)
fails with `KeyGenerationError`; on success the returned keypair has both
`publicKey` and `privateKey` present. -/
theorem generateKeyPair_classification (e : CryptoEnv) :
    (e.webCrypto = false → ∃ m, generateKeyPair e = .error (.unsupportedBrowser m)) ∧
    (∀ name msg, e.webCrypto = true → e.genOutcome = .failure name msg →
      (if name = "NotSupportedError" ∨ strIncludes msg "Ed25519" = true
       then ∃ m, generateKeyPair e = .error (.unsupportedBrowser m)
       else ∃ m, generateKeyPair e = .error (.keyGeneration m))) ∧
    (∀ p q, e.webCrypto = true → e.genOutcome = .success p q →
      (if p && q
       then ∃ kp, generateKeyPair e = .ok kp ∧ kp.hasPublicKey = true ∧ kp.hasPrivateKey = true
       else ∃ m, generateKeyPair e = .error (.keyGeneration m))) ∧
    (e.webCrypto = true → e.genOutcome = .thrownValue →
      ∃ m, generateKeyPair e = .error (.keyGeneration m)) ∧
    (∀ m, generateKeyPair e = .error (.unsupportedBrowser m) →
      e.webCrypto = false ∨ ∃ name msg, e.genOutcome = .failure name msg ∧
        (name = "NotSupportedError" ∨ strIncludes msg "Ed25519" = true)) := by
  obtain ⟨wc, ed, oc⟩ := e
  cases wc
  · simp [generateKeyPair]
  · cases oc with
    | success p q =>
      cases p <;> cases q <;> simp [generateKeyPair]
    | failure name msg =>
      by_cases hn : name = "NotSupportedError"
      · subst hn
        simp [generateKeyPair]
        exact ⟨"NotSupportedError", msg, ⟨rfl, rfl⟩, Or.inl rfl⟩
      · by_cases hs : strIncludes msg "Ed25519" = true
        · simp [generateKeyPair, hn, hs]
          exact ⟨name, msg, ⟨rfl, rfl⟩, Or.inr hs⟩
        · have hs2 : strIncludes msg "Ed25519" = false := by simpa using hs
          simp [generateKeyPair, hn, hs2]
    | thrownValue =>
      simp [generateKeyPair]

/-- C7 counterexample: key data whose `publicKey` is non-empty but not valid
Base64 makes `decodeKey` throw the base `CryptoError`, which `importKeyPair`
rethrows unchanged — the caller observes a `CryptoError`, not the
`KeyImportExportError` the claim states. -/
theorem importKeyPair_counterexample :
    importKeyPair true .success .success (some ⟨"!!!", "AAAA"⟩) =
      .error (.cryptoError ("Failed to decode Base64 key: " ++ atobErrorMessage)) ∧
    ¬ ∃ m, importKeyPair true .success .success (some ⟨"!!!", "AAAA"⟩) =
        .error (.keyImportExport m) := by
  constructor
  · rfl
  · rintro ⟨m, hm⟩
    have h1 : importKeyPair true .success .success (some ⟨"!!!", "AAAA"⟩) =
        .error (.cryptoError ("Failed to decode Base64 key: " ++ atobErrorMessage)) := rfl
    have h2 : CryptoErr.cryptoError ("Failed to decode Base64 key: " ++ atobErrorMessage) =
        CryptoErr.keyImportExport m := by
      exact Except.error.inj (h1.symm.trans hm)
    exact absurd h2 (by simp)

/-- C7 (amended): with a supported browser and non-empty keys, the decode
and import steps run in order — public key decode, public key import,
private key decode, private key import — and the first to fail determines
the error.  A `publicKey` that is not valid Base64, or (once the public key
decodes and imports) a `privateKey` that is not valid Base64, fails with
the base `CryptoError` from `decodeKey` (the rethrow arm), not with
`KeyImportExportError`; a platform import that rejects the decoded public
key as `DataError`, or (once the public side succeeds and the private key
decodes) rejects the decoded private key as `DataError`, fails with
`KeyImportExportError`. -/
theorem importKeyPair_error_classification :
    (∀ imp1 imp2 (pub priv : String), pub ≠ "" → priv ≠ "" → atobList pub.data = none →
      importKeyPair true imp1 imp2 (some ⟨pub, priv⟩) =
        .error (.cryptoError ("Failed to decode Base64 key: " ++ atobErrorMessage))) ∧
    (∀ imp2 (pub priv : String) bs, pub ≠ "" → priv ≠ "" → atobList pub.data = some bs →
      atobList priv.data = none →
      importKeyPair true .success imp2 (some ⟨pub, priv⟩) =
        .error (.cryptoError ("Failed to decode Base64 key: " ++ atobErrorMessage))) ∧
    (∀ imp2 (pub priv : String) m bs, pub ≠ "" → priv ≠ "" → atobList pub.data = some bs →
      importKeyPair true (.failure "DataError" m) imp2 (some ⟨pub, priv⟩) =
        .error (.keyImportExport
          "Invalid key format: the provided keys are corrupted or in an unsupported format")) ∧
    (∀ (pub priv : String) m bs cs, pub ≠ "" → priv ≠ "" → atobList pub.data = some bs →
      atobList priv.data = some cs →
      importKeyPair true .success (.failure "DataError" m) (some ⟨pub, priv⟩) =
        .error (.keyImportExport
          "Invalid key format: the provided keys are corrupted or in an unsupported format")) := by
  refine ⟨?_, ?_, ?_, ?_⟩
  · intro imp1 imp2 pub priv hp hq hatob
    simp [importKeyPair, hp, hq, decodeKey, atob, hatob]
  · intro imp2 pub priv bs hp hq hatobP hatobQ
    simp [importKeyPair, hp, hq, decodeKey, atob, hatobP, hatobQ, importClassify]
  · intro imp2 pub priv m bs hp hq hatob
    simp [importKeyPair, hp, hq, decodeKey, atob, hatob, importClassify]
  · intro pub priv m bs cs hp hq hatobP hatobQ
    simp [importKeyPair, hp, hq, decodeKey, atob, hatobP, hatobQ, importClassify]

theorem jsonStringify_obj_ne_empty (fs : List (String × JsonValue)) :
    jsonStringify (.obj fs) ≠ "" := by
  intro hcon
  have hd : (jsonStringify (.obj fs)).data = [] := by
    rw [hcon]
  simp [jsonStringify] at hd

theorem getField_stored_publicKey (kd : KeyPairData) (now : Nat) :
    getField [("publicKey", JsonValue.str kd.publicKey),
      ("privateKey", JsonValue.str kd.privateKey), ("algorithm", JsonValue.str "Ed25519"),
      ("created", JsonValue.num (now : Int) 0)] "publicKey" = some (.str kd.publicKey) := by
  simp [getField, List.lookup]

theorem getField_stored_privateKey (kd : KeyPairData) (now : Nat) :
    getField [("publicKey", JsonValue.str kd.publicKey),
      ("privateKey", JsonValue.str kd.privateKey), ("algorithm", JsonValue.str "Ed25519"),
      ("created", JsonValue.num (now : Int) 0)] "privateKey" = some (.str kd.privateKey) := by
  simp [getField, List.lookup]

theorem getField_stored_algorithm (kd : KeyPairData) (now : Nat) :
    getField [("publicKey", JsonValue.str kd.publicKey),
      ("privateKey", JsonValue.str kd.privateKey), ("algorithm", JsonValue.str "Ed25519"),
      ("created", JsonValue.num (now : Int) 0)] "algorithm" = some (.str "Ed25519") := by
  simp [getField, List.lookup]

theorem getField_stored_created (kd : KeyPairData) (now : Nat) :
    getField [("publicKey", JsonValue.str kd.publicKey),
      ("privateKey", JsonValue.str kd.privateKey), ("algorithm", JsonValue.str "Ed25519"),
      ("created", JsonValue.num (now : Int) 0)] "created" = some (.num (now : Int) 0) := by
  simp [getField, List.lookup]

theorem jsNumPos_of_pos {n : Nat} (h : 0 < n) : jsNumPos (n : Int) 0 = true := by
  simp [jsNumPos]
  exact_mod_cast h

/-- C1: persist/load idempotence — for every `KeyPairData` with non-empty
`publicKey` and `privateKey`, when local storage is available, `saveKeyPair`
followed by `loadKeyPair` returns a record whose `publicKey` and
`privateKey` equal the saved ones unchanged.  `c` is the platform JSON
contract (`JSON.parse ∘ JSON.stringify = id`) at the one serialized record,
and `n` records that `Date.now()` is positive. -/
theorem saveKeyPair_loadKeyPair_roundtrip (s : LocalStorage) (now : Nat) (kd : KeyPairData)
    (h : s.available = true) (p : kd.publicKey ≠ "") (q : kd.privateKey ≠ "")
    (n : 0 < now)
    (c : jsonParse (jsonStringify (storedKeyPairJson kd now)) =
      some (storedKeyPairJson kd now)) :
    (saveKeyPair now (some kd) s).1 = .ok () ∧
    (loadKeyPair (saveKeyPair now (some kd) s).2.1).1 = .ok (some kd) := by
  have hsave : saveKeyPair now (some kd) s =
      (.ok (), setItem STORAGE_KEY (jsonStringify (storedKeyPairJson kd now))
        (removeItem testStorageKey (setItem testStorageKey "test" s)),
       [.set testStorageKey "test", .remove testStorageKey,
        .set STORAGE_KEY (jsonStringify (storedKeyPairJson kd now))]) := by
    simp [saveKeyPair, isLocalStorageAvailable, h, p, q]
  rw [hsave]
  refine ⟨rfl, ?_⟩
  have hava : (setItem STORAGE_KEY (jsonStringify (storedKeyPairJson kd now))
      (removeItem testStorageKey (setItem testStorageKey "test" s))).available = true := by
    rw [available_setItem, available_removeItem, available_setItem]
    exact h
  have hget : getItem STORAGE_KEY (setItem STORAGE_KEY (jsonStringify (storedKeyPairJson kd now))
      (removeItem testStorageKey (setItem testStorageKey "test" s))) =
      some (jsonStringify (storedKeyPairJson kd now)) :=
    getItem_setItem_self _ _ _
  have hval : validateStoredKeyPair (storedKeyPairJson kd now) = true := by
    apply (validateStoredKeyPair_iff _).mpr
    refine ⟨_, kd.publicKey, kd.privateKey, (now : Int), 0, rfl,
      getField_stored_publicKey kd now, p, getField_stored_privateKey kd now, q,
      getField_stored_algorithm kd now, getField_stored_created kd now, jsNumPos_of_pos n⟩
  have hgp : getStrField (storedKeyPairJson kd now) "publicKey" = kd.publicKey := by
    simp [getStrField, storedKeyPairJson, getField_stored_publicKey kd now]
  have hgq : getStrField (storedKeyPairJson kd now) "privateKey" = kd.privateKey := by
    simp [getStrField, storedKeyPairJson, getField_stored_privateKey kd now]
  have g1 : getItem STORAGE_KEY (removeItem testStorageKey (setItem testStorageKey "test"
      (setItem STORAGE_KEY (jsonStringify (storedKeyPairJson kd now))
        (removeItem testStorageKey (setItem testStorageKey "test" s))))) =
      some (jsonStringify (storedKeyPairJson kd now)) := by
    rw [getItem_removeItem_ne _ storageKey_ne_test, getItem_setItem_ne _ _ storageKey_ne_test]
    exact hget
  have hne : jsonStringify (storedKeyPairJson kd now) ≠ "" := jsonStringify_obj_ne_empty _
  simp [loadKeyPair, isLocalStorageAvailable, hava, g1, hne, c, hval, hgp, hgq]

/-- Witness for C1 at a concrete input: a concrete keypair saved at time 1
into an available empty store and loaded back. -/
theorem saveKeyPair_loadKeyPair_roundtrip_witness :
    (saveKeyPair 1 (some ⟨"QUJD", "WFla"⟩) ⟨true, []⟩).1 = .ok () ∧
    (loadKeyPair (saveKeyPair 1 (some ⟨"QUJD", "WFla"⟩) ⟨true, []⟩).2.1).1 =
      .ok (some ⟨"QUJD", "WFla"⟩) :=
  saveKeyPair_loadKeyPair_roundtrip ⟨true, []⟩ 1 ⟨"QUJD", "WFla"⟩ rfl (by decide) (by decide)
    (by decide) (by rfl)

theorem decode_encode_b64 : ∀ i : Fin 64, decodeB64Char (encodeB64Char i.val) = some i.val := by
  decide

theorem encode_ne_pad : ∀ i : Fin 64, encodeB64Char i.val ≠ '=' := by decide

theorem encode_not_ws : ∀ i : Fin 64, isAtobWs (encodeB64Char i.val) = false := by decide

theorem decode_encode_b64n {i : Nat} (h : i < 64) :
    decodeB64Char (encodeB64Char i) = some i := decode_encode_b64 ⟨i, h⟩

theorem encode_ne_padn {i : Nat} (h : i < 64) : encodeB64Char i ≠ '=' :=
  encode_ne_pad ⟨i, h⟩

theorem encode_not_wsn {i : Nat} (h : i < 64) : isAtobWs (encodeB64Char i) = false :=
  encode_not_ws ⟨i, h⟩

theorem btoaChunks_not_ws (bytes : List Nat) (h : ∀ b ∈ bytes, b < 256) :
    ∀ c ∈ btoaChunks bytes, isAtobWs c = false := by
  induction bytes using btoaChunks.induct with
  | case1 b1 b2 b3 rest ih =>
    have hb1 : b1 < 256 := h _ (by simp)
    have hb2 : b2 < 256 := h _ (by simp)
    have hb3 : b3 < 256 := h _ (by simp)
    intro c hc
    simp only [btoaChunks, List.mem_cons] at hc
    rcases hc with rfl | rfl | rfl | rfl | hc
    · exact encode_not_wsn (by omega)
    · exact encode_not_wsn (by omega)
    · exact encode_not_wsn (by omega)
    · exact encode_not_wsn (by omega)
    · exact ih (fun b hb => h b (by simp [hb])) c hc
  | case2 b1 b2 =>
    have hb1 : b1 < 256 := h _ (by simp)
    have hb2 : b2 < 256 := h _ (by simp)
    intro c hc
    simp only [btoaChunks, List.mem_cons, List.not_mem_nil, or_false] at hc
    rcases hc with rfl | rfl | rfl | rfl
    · exact encode_not_wsn (by omega)
    · exact encode_not_wsn (by omega)
    · exact encode_not_wsn (by omega)
    · decide
  | case3 b1 =>
    have hb1 : b1 < 256 := h _ (by simp)
    intro c hc
    simp only [btoaChunks, List.mem_cons, List.not_mem_nil, or_false] at hc
    rcases hc with rfl | rfl | rfl | rfl
    · exact encode_not_wsn (by omega)
    · exact encode_not_wsn (by omega)
    · decide
    · decide
  | case4 =>
    intro c hc
    simp [btoaChunks] at hc

theorem btoaChunks_filter_ws (bytes : List Nat) (h : ∀ b ∈ bytes, b < 256) :
    (btoaChunks bytes).filter (fun c => !(isAtobWs c)) = btoaChunks bytes := by
  rw [List.filter_eq_self]
  intro c hc
  rw [btoaChunks_not_ws bytes h c hc]
  rfl

theorem atobChunks_btoaChunks (bytes : List Nat) (h : ∀ b ∈ bytes, b < 256) :
    atobChunks (btoaChunks bytes) = some bytes := by
  induction bytes using btoaChunks.induct with
  | case1 b1 b2 b3 rest ih =>
    have hb1 : b1 < 256 := h _ (by simp)
    have hb2 : b2 < 256 := h _ (by simp)
    have hb3 : b3 < 256 := h _ (by simp)
    have h1 : b1 / 4 < 64 := by omega
    have h2 : (b1 % 4) * 16 + b2 / 16 < 64 := by omega
    have h3 : (b2 % 16) * 4 + b3 / 64 < 64 := by omega
    have h4 : b3 % 64 < 64 := by omega
    have ihr := ih (fun b hb => h b (by simp [hb]))
    simp only [btoaChunks, atobChunks, if_neg (encode_ne_padn h3), if_neg (encode_ne_padn h4),
      decode_encode_b64n h1, decode_encode_b64n h2, decode_encode_b64n h3,
      decode_encode_b64n h4, ihr]
    simp only [Option.some.injEq, List.cons.injEq, eq_self_iff_true, and_true]
    refine ⟨?_, ?_, ?_⟩ <;> omega
  | case2 b1 b2 =>
    have hb1 : b1 < 256 := h _ (by simp)
    have hb2 : b2 < 256 := h _ (by simp)
    have h1 : b1 / 4 < 64 := by omega
    have h2 : (b1 % 4) * 16 + b2 / 16 < 64 := by omega
    have h3 : (b2 % 16) * 4 < 64 := by omega
    simp only [btoaChunks, atobChunks, if_neg (encode_ne_padn h3),
      decode_encode_b64n h1, decode_encode_b64n h2, decode_encode_b64n h3]
    simp only [if_true, eq_self_iff_true, Option.some.injEq, List.cons.injEq, and_true]
    constructor <;> omega
  | case3 b1 =>
    have hb1 : b1 < 256 := h _ (by simp)
    have h1 : b1 / 4 < 64 := by omega
    have h2 : (b1 % 4) * 16 < 64 := by omega
    simp only [btoaChunks, atobChunks, decode_encode_b64n h1, decode_encode_b64n h2]
    simp only [if_true, eq_self_iff_true, and_self, Option.some.injEq, List.cons.injEq, and_true]
    omega
  | case4 => rfl

theorem char_toNat_ofNat {n : Nat} (h : n < 256) : (Char.ofNat n).toNat = n := by
  have hv : n.isValidChar := by
    unfold Nat.isValidChar
    omega
  unfold Char.ofNat
  rw [dif_pos hv]
  rfl

theorem encodeKey_eq (buffer : List Nat) (h : ∀ b ∈ buffer, b < 256) :
    encodeKey buffer = String.mk (btoaChunks buffer) := by
  have hall : (buffer.map (fun b => Char.ofNat b)).all (fun c => c.toNat ≤ 255) = true := by
    rw [List.all_eq_true]
    intro c hc
    rw [List.mem_map] at hc
    obtain ⟨b, hb, rfl⟩ := hc
    have hlt := h b hb
    rw [decide_eq_true_eq, char_toNat_ofNat hlt]
    omega
  simp only [encodeKey, btoa, hall, eq_self_iff_true, if_true]
  have hmm : (buffer.map (fun b => Char.ofNat b)).map Char.toNat = buffer := by
    rw [List.map_map]
    have hcong : buffer.map (Char.toNat ∘ fun b => Char.ofNat b) = buffer.map id :=
      List.map_congr_left (fun b hb => char_toNat_ofNat (h b hb))
    rw [hcong, List.map_id]
  rw [hmm]

theorem btoaChunks_ne_nil (bytes : List Nat) (h : bytes ≠ []) : btoaChunks bytes ≠ [] := by
  match bytes with
  | [] => exact absurd rfl h
  | [b1] => simp [btoaChunks]
  | [b1, b2] => simp [btoaChunks]
  | b1 :: b2 :: b3 :: rest => simp [btoaChunks]

/-- C5 counterexample: for the empty byte buffer, `encodeKey` produces the
empty string (`btoa('')`), which `decodeKey` rejects as invalid input with a
`CryptoError` instead of returning the empty buffer — so the round-trip
fails for that buffer. -/
theorem decodeKey_encodeKey_empty :
    encodeKey [] = "" ∧
    decodeKey (encodeKey []) =
      .error (.cryptoError "Invalid input: encoded key must be a non-empty string") ∧
    decodeKey (encodeKey []) ≠ .ok [] := by
  refine ⟨rfl, rfl, ?_⟩
  intro hcon
  have h1 : decodeKey (encodeKey []) =
      .error (.cryptoError "Invalid input: encoded key must be a non-empty string") := rfl
  rw [h1] at hcon
  exact absurd hcon (by simp)

/-- C5 (amended): the Base64 framing used by export/import is lossless for
every non-empty byte buffer: `decodeKey (encodeKey b)` returns exactly the
bytes of `b`.  (The platform's opaque export/import calls around this
framing are delegated to Web Crypto and not modelled.) -/
theorem decodeKey_encodeKey_roundtrip (buffer : List Nat)
    (h : ∀ b ∈ buffer, b < 256) (n : buffer ≠ []) :
    decodeKey (encodeKey buffer) = .ok buffer := by
  rw [encodeKey_eq buffer h]
  unfold decodeKey
  have hne2 : String.mk (btoaChunks buffer) ≠ "" := by
    intro hcon
    exact btoaChunks_ne_nil buffer n (congrArg String.data hcon)
  rw [if_neg hne2]
  have hdata : (String.mk (btoaChunks buffer)).data = btoaChunks buffer := rfl
  rw [hdata]
  unfold atob atobList
  rw [btoaChunks_filter_ws buffer h, atobChunks_btoaChunks buffer h]
  show (Except.ok ((buffer.map Char.ofNat).map (fun c => c.toNat % 256)) :
    Except CryptoErr (List Nat)) = .ok buffer
  have hback : (buffer.map Char.ofNat).map (fun c => c.toNat % 256) = buffer := by
    rw [List.map_map]
    have hcong : buffer.map ((fun c => c.toNat % 256) ∘ Char.ofNat) = buffer.map id :=
      List.map_congr_left (fun b hb => by
        have hlt := h b hb
        simp only [Function.comp_apply, char_toNat_ofNat hlt, id]
        omega)
    rw [hcong, List.map_id]
  rw [hback]

/-- Witness for C5 at a concrete input: the three-byte buffer `[0, 1, 255]`
round-trips through the Base64 framing. -/
theorem decodeKey_encodeKey_roundtrip_witness :
    decodeKey (encodeKey [0, 1, 255]) = .ok [0, 1, 255] :=
  decodeKey_encodeKey_roundtrip [0, 1, 255] (by decide) (by decide)
